import Mathlib

set_option autoImplicit false

/-!
Shallow embedding of the twitter-bot dubbing pipeline.

The definitions below translate the JavaScript sources of the repository:
`functions/index.js` (the mention handlers, `normalizeLanguage`, `parseMention`,
the Murf job driver `sendToMurf` and the processed-tweet dedupe checks),
`functions/config/murf.js` (the legacy `LANGUAGE_MAP`),
`functions/services/dubbing.js` (the legacy dubbing service with its retried
submission) and `functions/utils/error.js` (`retryOperation`).  External I/O
(HTTP requests, the OpenAI call, Firestore documents) is represented by
explicit oracle arguments, and every network interaction is counted in the
returned traces.
-/

namespace TwitterBot

/-- JS whitespace test used by `String.prototype.trim` (ASCII part). -/
def jsIsSpace (c : Char) : Bool :=
  c == ' ' || c == '\t' || c == '\n' || c == '\r' || c == Char.ofNat 11 || c == Char.ofNat 12

/-- `String.prototype.trim`: drop whitespace from both ends. -/
def jsTrim (s : String) : String :=
  String.mk (((s.data.dropWhile jsIsSpace).reverse.dropWhile jsIsSpace).reverse)

/-- `String.prototype.toLowerCase` (ASCII part). -/
def jsToLower (s : String) : String :=
  String.mk (s.data.map Char.toLower)

/-- `trimmed.charAt(0).toUpperCase() + trimmed.slice(1)` from `normalizeLanguage`. -/
def upperFirstChar (s : String) : String :=
  match s.data with
  | [] => ""
  | c :: cs => String.mk (Char.toUpper c :: cs)

/-- JS truthiness of a possibly-absent string: `undefined` and `""` are falsy. -/
def jsTruthy (o : Option String) : Bool :=
  match o with
  | none => false
  | some s => !(s == "")

/-- JS `a || b` on possibly-absent strings. -/
def jsOr (a b : Option String) : Option String :=
  if jsTruthy a then a else b

/-- Lookup of a key in a JS object literal used as a string map (source key order). -/
def assocLookup (table : List (String × String)) (key : String) : Option String :=
  (table.find? (fun e => e.1 == key)).map (fun e => e.2)

/-- `LANGUAGE_MAP` from `functions/index.js` (the map the job driver consults). -/
def LANGUAGE_MAP : List (String × String) :=
  [("French", "fr_FR"), ("German", "de_DE"), ("Spanish", "es_ES"), ("Hindi", "hi_IN"),
   ("Japanese", "ja_JP"), ("English", "en_US"), ("Korean", "ko_KR"), ("Chinese", "zh_CN")]

/-- `isoToName` from `normalizeLanguage` in `functions/index.js`. -/
def isoToName : List (String × String) :=
  [("hi", "Hindi"), ("es", "Spanish"), ("fr", "French"), ("de", "German"),
   ("ja", "Japanese"), ("en", "English"), ("ko", "Korean"), ("zh", "Chinese")]

/-- Keys of `isoToName`: the eight known two-letter codes. -/
def isoCodeKeys : List String :=
  isoToName.map Prod.fst

/-- `normalizeLanguage` from `functions/index.js`.  The argument is
`Option String` so that a JS `undefined` input is representable; a falsy
input (absent or empty) yields `undefined`. -/
def normalizeLanguage (input : Option String) : Option String :=
  match input with
  | none => none
  | some s =>
    if s == "" then none
    else
      let trimmed := jsTrim s
      let lower := jsToLower trimmed
      match assocLookup isoToName lower with
      | some name => some name
      | none => some (upperFirstChar trimmed)

namespace Murf

/-- One element of the vendor status payload field `download_details`. -/
structure DownloadDetail where
  download_url : Option String
deriving DecidableEq, Repr

/-- Result of one `axios.get` status poll: either the request throws
(network error) or it yields the vendor JSON payload. -/
inductive PollResponse where
  | netError
  | ok (status : String) (download_details : Option (List DownloadDetail))
      (failure_reason : Option String)
deriving DecidableEq, Repr

/-- What the body of the polling `for` loop in `sendToMurf`
(`functions/index.js`) does with one poll response, before the
surrounding `catch`: it can `return` a URL, `throw`, or fall through. -/
inductive BodyResult where
  | returned (url : String)
  | threw (msg : String)
  | normal
deriving DecidableEq, Repr

/-- The `try` block of the polling loop, translated statement by statement:
`COMPLETED` with a truthy `download_url` entry returns that URL; `COMPLETED`
without one throws; `FAILED` throws with the vendor reason or
"Unknown error"; any other status falls through to the wait. -/
def loopBody (r : PollResponse) : BodyResult :=
  match r with
  | .netError => .threw "network error while polling"
  | .ok status dd fr =>
    if status == "COMPLETED" then
      match dd.bind (fun l => l.find? (fun d => jsTruthy d.download_url)) with
      | some d => .returned (d.download_url.getD "")
      | none => .threw "Murf job completed, but no download details found."
    else if status == "FAILED" then
      .threw ("Murf dubbing failed: " ++ (if jsTruthy fr then fr.getD "" else "Unknown error"))
    else
      .normal

/-- Terminal result of the polling loop together with the number of status
polls performed.  The loop in the source exits only by returning a download
URL or by exhausting the attempt budget: its `catch` swallows every throw of
the `try` block, so a thrown `FAILED` or empty-`COMPLETED` error never leaves
the loop. -/
inductive DriverOutcome where
  | success (url : String) (polls : Nat)
  | timeout (polls : Nat)
deriving DecidableEq, Repr

/-- The polling `for` loop: `fuel` attempts remain and `i` polls were already
performed.  Each iteration performs one status call; a `returned` body exits,
while `threw` (caught and logged by the `catch`) and `normal` both continue. -/
def pollFrom (oracle : Nat → PollResponse) : Nat → Nat → DriverOutcome
  | 0, i => .timeout i
  | fuel + 1, i =>
    match loopBody (oracle i) with
    | .returned url => .success url (i + 1)
    | .threw _ => pollFrom oracle fuel (i + 1)
    | .normal => pollFrom oracle fuel (i + 1)

/-- Result of the single `axios.post` submission call: the vendor either
returns a job id or the call throws (non-2xx / network). -/
inductive SubmitResponse where
  | ok (jobId : String)
  | httpError (code : Nat)
deriving DecidableEq, Repr

/-- Observable outcome of `sendToMurf` in `functions/index.js`. -/
inductive SendResult where
  | unsupportedLanguage (lang : String)
  | submitFailed (code : Nat)
  | success (url : String)
  | timeout
deriving DecidableEq, Repr

/-- Outcome of one `sendToMurf` run plus the number of network calls it made,
split into submission calls and status-poll calls. -/
structure RunTrace where
  result : SendResult
  submitCalls : Nat
  statusCalls : Nat
deriving DecidableEq, Repr

/-- `maxRetries` from `functions/index.js`. -/
def maxRetries : Nat := 120

/-- `sendToMurf` from `functions/index.js`: resolve the target locale from
`LANGUAGE_MAP` (throwing `Unsupported language` before any network call when
absent), submit the job once, then run the 120-attempt polling loop. -/
def sendToMurf (language : String) (submit : SubmitResponse)
    (oracle : Nat → PollResponse) : RunTrace :=
  match assocLookup LANGUAGE_MAP language with
  | none => ⟨.unsupportedLanguage language, 0, 0⟩
  | some _locale =>
    match submit with
    | .httpError c => ⟨.submitFailed c, 1, 0⟩
    | .ok _jobId =>
      match pollFrom oracle maxRetries 0 with
      | .success url polls => ⟨.success url, 1, polls⟩
      | .timeout polls => ⟨.timeout, 1, polls⟩

end Murf

namespace Retry

/-- A thrown JS error as inspected by `retryOperation`: only its `code`
property matters (absent for plain network errors). -/
structure OpError where
  code : Option String
deriving DecidableEq, Repr

/-- The `for` loop of `retryOperation` (`functions/utils/error.js`):
`attempt` is the 1-based attempt counter, `fuel` the remaining attempts.
The returned `Nat` counts how many times `operation` was invoked.
A `VALIDATION_ERROR` code or the final attempt rethrows; otherwise the loop
backs off and retries. -/
def retryGo {α : Type} (op : Nat → Except OpError α) (maxRetries : Nat) :
    Nat → Nat → Except OpError α × Nat
  | _, 0 => (.error ⟨none⟩, 0)
  | attempt, fuel + 1 =>
    match op attempt with
    | .ok a => (.ok a, 1)
    | .error e =>
      if e.code == some "VALIDATION_ERROR" || attempt == maxRetries then (.error e, 1)
      else
        let r := retryGo op maxRetries (attempt + 1) fuel
        (r.1, r.2 + 1)

/-- `retryOperation` from `functions/utils/error.js` with its default of
3 attempts made explicit at call sites. -/
def retryOperation {α : Type} (op : Nat → Except OpError α) (maxRetries : Nat) :
    Except OpError α × Nat :=
  retryGo op maxRetries 1 maxRetries

end Retry

namespace Dubbing

/-- `LANGUAGE_MAP` from `functions/config/murf.js` (six entries only). -/
def configLanguageMap : List (String × String) :=
  [("French", "fr_FR"), ("German", "de_DE"), ("Spanish", "es_ES"),
   ("Hindi", "hi_IN"), ("Japanese", "ja_JP"), ("English", "en_US")]

/-- Observable outcome of `sendToMurf` in `functions/services/dubbing.js`. -/
inductive DubResult where
  | unsupported (lang : String)
  | dubbed (url : String)
  | failed (e : Retry.OpError)
deriving DecidableEq, Repr

/-- `sendToMurf` from `functions/services/dubbing.js`: after the locale
lookup, the vendor submission `axios.post(baseUrl + "/dub", form)` is wrapped
in `retryOperation` (3 attempts).  `submitOp n` is the result of the n-th
submission attempt; the returned `Nat` counts submission requests issued. -/
def sendToMurf (language : String)
    (submitOp : Nat → Except Retry.OpError String) : DubResult × Nat :=
  match assocLookup configLanguageMap language with
  | none => (.unsupported language, 0)
  | some _locale =>
    let r := Retry.retryOperation submitOp 3
    match r.1 with
    | .ok url => (.dubbed url, r.2)
    | .error e => (.failed e, r.2)

end Dubbing

namespace Extract

/-- The regex word-character class `[A-Za-z0-9_]`. -/
def isWordChar (c : Char) : Bool :=
  c.isAlpha || c.isDigit || c == '_'

/-- Consume the literal character sequence `lit` from the front of `l`. -/
def eatLit : List Char → List Char → Option (List Char)
  | [], rest => some rest
  | p :: ps, c :: cs => if c == p then eatLit ps cs else none
  | _ :: _, [] => none

/-- Consume one or more characters satisfying `p`, greedily. -/
def eatPlus (p : Char → Bool) (l : List Char) : Option (List Char) :=
  let taken := l.takeWhile p
  if taken.isEmpty then none else some (l.drop taken.length)

/-- Consume an optional single character `c` (the `s?` of `https?`). -/
def eatOpt (c : Char) (l : List Char) : List Char :=
  match l with
  | x :: xs => if x == c then xs else l
  | [] => l

/-- Try to match `https?://(?:x|twitter)\.com/[A-Za-z0-9_]+/status/(\d+)` at
the head of `l`; on success return the length of the match.  The alternatives
`x` and `twitter` differ in their first character and each repetition is
followed by a character outside its class, so greedy matching without
backtracking is exact here. -/
def urlMatchAt (l : List Char) : Option Nat :=
  ((eatLit "http".data l).bind fun r1 =>
    (eatLit "://".data (eatOpt 's' r1)).bind fun r2 =>
    (match eatLit "x".data r2 with
     | some r3 => some r3
     | none => eatLit "twitter".data r2).bind fun r4 =>
    (eatLit ".com/".data r4).bind fun r5 =>
    (eatPlus isWordChar r5).bind fun r6 =>
    (eatLit "/status/".data r6).bind fun r7 =>
    eatPlus Char.isDigit r7).map fun rest => l.length - rest.length

/-- Leftmost match: try `f` at every start position, earliest first, and
return the matched characters (`match[0]` in JS). -/
def scanFirst (f : List Char → Option Nat) : List Char → Option (List Char)
  | [] => (f []).map fun n => ([] : List Char).take n
  | c :: cs =>
    match f (c :: cs) with
    | some n => some ((c :: cs).take n)
    | none => scanFirst f cs

/-- `text.match(/https?:\/\/(?:x|twitter)\.com\/[A-Za-z0-9_]+\/status\/(\d+)/)`,
reduced to its `match[0]`. -/
def urlFirst (text : String) : Option String :=
  (scanFirst urlMatchAt text.data).map String.mk

/-- The alternatives of `\b(fr|de|es|hi|ja|en|ko|zh)\b`, lower-cased. -/
def isoCodes : List String :=
  ["fr", "de", "es", "hi", "ja", "en", "ko", "zh"]

/-- Case-insensitive match of one two-letter code at the head of `l`, with
both `\b` boundaries: the previous character (tracked by `prevWord`) must not
be a word character, and neither may the character after the code. -/
def isoPairAt (prevWord : Bool) : List Char → Option (List Char)
  | c1 :: c2 :: rest =>
    if prevWord then none
    else if isoCodes.contains (String.mk [c1.toLower, c2.toLower])
        && !(match rest with | r :: _ => isWordChar r | [] => false) then
      some [c1, c2]
    else none
  | _ => none

/-- Scan for the leftmost `\b(fr|de|es|hi|ja|en|ko|zh)\b` match, carrying
whether the previous character was a word character. -/
def isoFirstAux : Bool → List Char → Option (List Char)
  | _, [] => none
  | prevWord, c :: cs =>
    match isoPairAt prevWord (c :: cs) with
    | some m => some m
    | none => isoFirstAux (isWordChar c) cs

/-- `text.match(/\b(fr|de|es|hi|ja|en|ko|zh)\b/i)`, reduced to its `match[0]`. -/
def isoFirst (text : String) : Option String :=
  (isoFirstAux false text.data).map String.mk

/-- How the OpenAI extraction call inside `parseMention` can end: the request
throws, the returned content is not valid JSON, or it parses to an object
whose `language` and `tweetUrl` fields may each be absent or empty. -/
inductive ServiceResult where
  | fail
  | badJson
  | parsed (language : Option String) (tweetUrl : Option String)
deriving DecidableEq, Repr

/-- Result shape of `parseMention`. -/
structure ParsedMention where
  language : Option String
  tweetUrl : Option String
deriving DecidableEq, Repr

/-- `parseMention` from `functions/index.js`: falsy text short-circuits to the
fallback; otherwise the two regex guesses are computed, and the service result
is merged over them with JS `||` semantics, the regex guesses standing in
whenever the call fails, the JSON is invalid, or a field is falsy. -/
def parseMention (text : String) (svc : ServiceResult) : ParsedMention :=
  if text == "" then ⟨none, none⟩
  else
    let guessedUrl := urlFirst text
    let isoGuess := isoFirst text
    match svc with
    | .fail => ⟨isoGuess, guessedUrl⟩
    | .badJson => ⟨isoGuess, guessedUrl⟩
    | .parsed lang url => ⟨jsOr lang isoGuess, jsOr url guessedUrl⟩

end Extract

namespace Pipeline

/-- A mention event as seen by `doPollMentions` / `processMentionTweet`. -/
structure Mention where
  id : String
  text : String
deriving DecidableEq, Repr

/-- How the per-mention pipeline ends once it has run the extractor: no tweet
URL found, download failure, Murf failure, or full success (only the last one
writes the processed marker in the source). -/
inductive StepOutcome where
  | noUrl
  | downloadFail
  | murfFail
  | murfSuccess
deriving DecidableEq, Repr

/-- State threaded through mention processing: the ids having a document in
the `processedTweets` collection, plus traces of which mention ids were passed
to `parseMention` and to `sendToMurf`. -/
structure PollState where
  processed : List String
  extractorCalls : List String
  murfCalls : List String
deriving DecidableEq, Repr

/-- The per-mention body shared by the loop of `doPollMentions` and by
`processMentionTweet` (`functions/index.js`): if `processedTweets` already
holds a document for the id, the mention is skipped before `parseMention` is
called; otherwise the extractor runs, then (when a URL was found and the
download worked) the job driver, and only a successful dub writes the
processed marker. -/
def processOne (st : PollState) (m : Mention) (out : StepOutcome) : PollState :=
  if m.id ∈ st.processed then st
  else
    match out with
    | .noUrl => { st with extractorCalls := st.extractorCalls ++ [m.id] }
    | .downloadFail => { st with extractorCalls := st.extractorCalls ++ [m.id] }
    | .murfFail =>
      { st with extractorCalls := st.extractorCalls ++ [m.id],
                murfCalls := st.murfCalls ++ [m.id] }
    | .murfSuccess =>
      { st with extractorCalls := st.extractorCalls ++ [m.id],
                murfCalls := st.murfCalls ++ [m.id],
                processed := st.processed ++ [m.id] }

/-- `processMentionTweet` (webhook path) runs the same guarded body for a
single delivered tweet. -/
def processMentionTweet (st : PollState) (m : Mention) (out : StepOutcome) : PollState :=
  processOne st m out

/-- The mention loop of `doPollMentions` over one polled batch (already
filtered to foreign tweets mentioning the bot handle). -/
def doPollMentions (st : PollState) (batch : List (Mention × StepOutcome)) : PollState :=
  batch.foldl (fun s p => processOne s p.1 p.2) st

end Pipeline

/-- Spec table row: language name, two-letter code, vendor locale. -/
structure LangEntry where
  name : String
  code : String
  locale : String
deriving DecidableEq, Repr

/-- The supported-language table of the spec (section 6). -/
def specLanguageTable : List LangEntry :=
  [⟨"English", "en", "en_US"⟩, ⟨"Spanish", "es", "es_ES"⟩, ⟨"French", "fr", "fr_FR"⟩,
   ⟨"German", "de", "de_DE"⟩, ⟨"Hindi", "hi", "hi_IN"⟩, ⟨"Japanese", "ja", "ja_JP"⟩,
   ⟨"Korean", "ko", "ko_KR"⟩, ⟨"Chinese", "zh", "zh_CN"⟩]

/-- Submission oracle for the retried dubbing-service submission: the first
two attempts fail with a Murf API error, the third succeeds. -/
def flakySubmitOp : Nat → Except Retry.OpError String :=
  fun attempt =>
    if 3 ≤ attempt then .ok "https://murf.example/video.mp4"
    else .error ⟨some "MURF_API_ERROR"⟩

/-- Status oracle for the C4 witness: a network error first, then a completed
job with one download entry, then running forever. -/
def c4Oracle : Nat → Murf.PollResponse :=
  fun j =>
    if j == 0 then .netError
    else if j == 1 then .ok "COMPLETED" (some [⟨some "https://murf.example/out.mp4"⟩]) none
    else .ok "RUNNING" none none

/-- The mock vendor status endpoint of the spec testable property: `RUNNING`
for the first 5 polls, then `COMPLETED` with one `download_details` entry. -/
def c5Oracle (url : String) : Nat → Murf.PollResponse :=
  fun i =>
    if i < 5 then .ok "RUNNING" none none
    else .ok "COMPLETED" (some [⟨some url⟩]) none

/-! Helper lemmas about the polling loop, the retry helper and the dedupe
pipeline, shared by the claim theorems below. -/

theorem pollFrom_zero (oracle : Nat → Murf.PollResponse) (i : Nat) :
    Murf.pollFrom oracle 0 i = .timeout i := rfl

theorem pollFrom_succ (oracle : Nat → Murf.PollResponse) (fuel i : Nat) :
    Murf.pollFrom oracle (fuel + 1) i =
      match Murf.loopBody (oracle i) with
      | .returned url => .success url (i + 1)
      | .threw _ => Murf.pollFrom oracle fuel (i + 1)
      | .normal => Murf.pollFrom oracle fuel (i + 1) := rfl

theorem pollFrom_timeout_of_no_return (oracle : Nat → Murf.PollResponse)
    (h : ∀ j url, Murf.loopBody (oracle j) ≠ .returned url) :
    ∀ fuel i, Murf.pollFrom oracle fuel i = .timeout (i + fuel) := by
  intro fuel
  induction fuel with
  | zero => intro i; simp [pollFrom_zero]
  | succ n ih =>
    intro i
    rw [pollFrom_succ]
    cases hb : Murf.loopBody (oracle i) with
    | returned url => exact absurd hb (h i url)
    | threw m =>
      show Murf.pollFrom oracle n (i + 1) = Murf.DriverOutcome.timeout (i + (n + 1))
      rw [ih (i + 1)]
      congr 1
      omega
    | normal =>
      show Murf.pollFrom oracle n (i + 1) = Murf.DriverOutcome.timeout (i + (n + 1))
      rw [ih (i + 1)]
      congr 1
      omega

theorem pollFrom_first_return (oracle : Nat → Murf.PollResponse) (k : Nat) (url : String)
    (hpre : ∀ j, j < k → ∀ u, Murf.loopBody (oracle j) ≠ .returned u)
    (hk : Murf.loopBody (oracle k) = .returned url) :
    ∀ fuel i, i ≤ k → k < i + fuel → Murf.pollFrom oracle fuel i = .success url (k + 1) := by
  intro fuel
  induction fuel with
  | zero => intro i hik hlt; omega
  | succ n ih =>
    intro i hik hlt
    rw [pollFrom_succ]
    by_cases hik2 : i = k
    · subst hik2
      rw [hk]
    · have hlt2 : i < k := lt_of_le_of_ne hik hik2
      cases hb : Murf.loopBody (oracle i) with
      | returned u => exact absurd hb (hpre i hlt2 u)
      | threw m =>
        show Murf.pollFrom oracle n (i + 1) = Murf.DriverOutcome.success url (k + 1)
        exact ih (i + 1) (by omega) (by omega)
      | normal =>
        show Murf.pollFrom oracle n (i + 1) = Murf.DriverOutcome.success url (k + 1)
        exact ih (i + 1) (by omega) (by omega)

theorem pollFrom_success_inv (oracle : Nat → Murf.PollResponse) :
    ∀ fuel i url k, Murf.pollFrom oracle fuel i = .success url k →
      i < k ∧ k ≤ i + fuel ∧ Murf.loopBody (oracle (k - 1)) = .returned url := by
  intro fuel
  induction fuel with
  | zero =>
    intro i url k h
    rw [pollFrom_zero] at h
    exact absurd h (by simp)
  | succ n ih =>
    intro i url k h
    rw [pollFrom_succ] at h
    cases hb : Murf.loopBody (oracle i) with
    | returned u =>
      rw [hb] at h
      have h2 : Murf.DriverOutcome.success u (i + 1) = .success url k := h
      injection h2 with hu hk
      subst hu
      subst hk
      refine ⟨by omega, by omega, ?_⟩
      rw [show i + 1 - 1 = i from by omega]
      exact hb
    | threw m =>
      rw [hb] at h
      have h2 : Murf.pollFrom oracle n (i + 1) = .success url k := h
      obtain ⟨ha, hc, hd⟩ := ih (i + 1) url k h2
      exact ⟨by omega, by omega, hd⟩
    | normal =>
      rw [hb] at h
      have h2 : Murf.pollFrom oracle n (i + 1) = .success url k := h
      obtain ⟨ha, hc, hd⟩ := ih (i + 1) url k h2
      exact ⟨by omega, by omega, hd⟩

theorem pollFrom_timeout_inv (oracle : Nat → Murf.PollResponse) :
    ∀ fuel i k, Murf.pollFrom oracle fuel i = .timeout k → k = i + fuel := by
  intro fuel
  induction fuel with
  | zero =>
    intro i k h
    rw [pollFrom_zero] at h
    injection h with hk
    omega
  | succ n ih =>
    intro i k h
    rw [pollFrom_succ] at h
    cases hb : Murf.loopBody (oracle i) with
    | returned u =>
      rw [hb] at h
      exact absurd h (by simp)
    | threw m =>
      rw [hb] at h
      have h2 : Murf.pollFrom oracle n (i + 1) = .timeout k := h
      have := ih (i + 1) k h2
      omega
    | normal =>
      rw [hb] at h
      have h2 : Murf.pollFrom oracle n (i + 1) = .timeout k := h
      have := ih (i + 1) k h2
      omega

theorem sendToMurf_poll (lang locale jobId : String) (oracle : Nat → Murf.PollResponse)
    (hl : assocLookup LANGUAGE_MAP lang = some locale) :
    Murf.sendToMurf lang (.ok jobId) oracle =
      match Murf.pollFrom oracle 120 0 with
      | .success url polls => ⟨.success url, 1, polls⟩
      | .timeout polls => ⟨.timeout, 1, polls⟩ := by
  unfold Murf.sendToMurf
  rw [hl]
  rfl

theorem retryGo_calls_le {α : Type} (op : Nat → Except Retry.OpError α) (m : Nat) :
    ∀ fuel attempt, (Retry.retryGo op m attempt fuel).2 ≤ fuel := by
  intro fuel
  induction fuel with
  | zero => intro attempt; simp [Retry.retryGo]
  | succ n ih =>
    intro attempt
    simp only [Retry.retryGo]
    cases hop : op attempt with
    | ok a => simp
    | error e =>
      cases hc : (e.code == some "VALIDATION_ERROR" || attempt == m) with
      | true => simp [hc]
      | false =>
        simp [hc]
        simpa using Nat.succ_le_succ (ih (attempt + 1))

theorem assocLookup_eq_none_of_not_mem_keys (table : List (String × String)) (key : String)
    (h : key ∉ table.map Prod.fst) : assocLookup table key = none := by
  induction table with
  | nil => rfl
  | cons e t ih =>
    simp only [List.map_cons, List.mem_cons] at h
    push_neg at h
    obtain ⟨h1, h2⟩ := h
    have hne : (e.1 == key) = false := beq_eq_false_iff_ne.mpr (Ne.symm h1)
    simp only [assocLookup, List.find?] at ih ⊢
    rw [hne]
    exact ih h2

theorem processOne_preserves (mid : String) (st : Pipeline.PollState)
    (m : Pipeline.Mention) (out : Pipeline.StepOutcome)
    (h1 : mid ∈ st.processed) (h2 : mid ∉ st.extractorCalls) (h3 : mid ∉ st.murfCalls) :
    mid ∈ (Pipeline.processOne st m out).processed ∧
    mid ∉ (Pipeline.processOne st m out).extractorCalls ∧
    mid ∉ (Pipeline.processOne st m out).murfCalls := by
  unfold Pipeline.processOne
  by_cases hm : m.id ∈ st.processed
  · rw [if_pos hm]
    exact ⟨h1, h2, h3⟩
  · have hne : ¬mid = m.id := fun hh => hm (hh ▸ h1)
    rw [if_neg hm]
    cases out <;> simp_all [List.mem_append]

theorem doPollMentions_preserves (mid : String) :
    ∀ (batch : List (Pipeline.Mention × Pipeline.StepOutcome)) (st : Pipeline.PollState),
      mid ∈ st.processed → mid ∉ st.extractorCalls → mid ∉ st.murfCalls →
      mid ∈ (Pipeline.doPollMentions st batch).processed ∧
      mid ∉ (Pipeline.doPollMentions st batch).extractorCalls ∧
      mid ∉ (Pipeline.doPollMentions st batch).murfCalls := by
  intro batch
  induction batch with
  | nil => intro st h1 h2 h3; exact ⟨h1, h2, h3⟩
  | cons p t ih =>
    intro st h1 h2 h3
    have hstep := processOne_preserves mid st p.1 p.2 h1 h2 h3
    exact ih (Pipeline.processOne st p.1 p.2) hstep.1 hstep.2.1 hstep.2.2

/-- C1: the claim says a FAILED poll, or a COMPLETED poll without download
details, makes `sendToMurf` fail immediately with `VendorFailed` and stop
polling.  The source does raise exactly those errors inside the loop body
(first two conjuncts), but the body sits in the `try` whose `catch` swallows
every throw, so the driver keeps polling through all 120 attempts and ends
with `Timeout` instead (last two conjuncts).  This contradicts the stated,
clearly intended behaviour: a code bug. -/
theorem c1_terminal_poll_swallowed_code_bug :
    Murf.loopBody (.ok "FAILED" none (some "Voice generation failed")) =
      .threw "Murf dubbing failed: Voice generation failed" ∧
    Murf.loopBody (.ok "COMPLETED" (some []) none) =
      .threw "Murf job completed, but no download details found." ∧
    Murf.sendToMurf "English" (.ok "job-1")
        (fun _ => .ok "FAILED" none (some "Voice generation failed")) =
      ⟨.timeout, 1, 120⟩ ∧
    Murf.sendToMurf "English" (.ok "job-1")
        (fun _ => .ok "COMPLETED" (some []) none) =
      ⟨.timeout, 1, 120⟩ := by
  refine ⟨rfl, rfl, ?_, ?_⟩
  · rw [sendToMurf_poll "English" "en_US" "job-1" _ (by decide),
        pollFrom_timeout_of_no_return _
          (fun j url => by
            show Murf.BodyResult.threw "Murf dubbing failed: Voice generation failed" ≠ _
            simp)
          120 0]
  · rw [sendToMurf_poll "English" "en_US" "job-1" _ (by decide),
        pollFrom_timeout_of_no_return _
          (fun j url => by
            show Murf.BodyResult.threw "Murf job completed, but no download details found." ≠ _
            simp)
          120 0]

/-- C2: when every status poll reports the non-terminal status `RUNNING`,
the job driver performs exactly 120 status polls and then fails with the
timeout error. -/
theorem c2_always_running_times_out (lang locale jobId : String)
    (oracle : Nat → Murf.PollResponse)
    (hl : assocLookup LANGUAGE_MAP lang = some locale)
    (ho : ∀ i, oracle i = .ok "RUNNING" none none) :
    Murf.sendToMurf lang (.ok jobId) oracle = ⟨.timeout, 1, 120⟩ := by
  have hnr : ∀ j url, Murf.loopBody (oracle j) ≠ .returned url := by
    intro j url
    rw [ho j]
    show Murf.BodyResult.normal ≠ _
    simp
  rw [sendToMurf_poll lang locale jobId oracle hl,
      pollFrom_timeout_of_no_return oracle hnr 120 0]

/-- Witness for C2 at the mock endpoint of the spec: always `RUNNING`. -/
theorem c2_witness :
    Murf.sendToMurf "English" (.ok "job-1") (fun _ => .ok "RUNNING" none none) =
      ⟨.timeout, 1, 120⟩ :=
  c2_always_running_times_out "English" "en_US" "job-1" _ (by decide) (fun _ => rfl)

/-- C3: a language missing from `LANGUAGE_MAP` makes `sendToMurf` fail with
the unsupported-language error before the submission request and before any
status poll: zero network calls of either kind. -/
theorem c3_unsupported_language_zero_network (lang : String)
    (h : assocLookup LANGUAGE_MAP lang = none) :
    ∀ (submit : Murf.SubmitResponse) (oracle : Nat → Murf.PollResponse),
      Murf.sendToMurf lang submit oracle = ⟨.unsupportedLanguage lang, 0, 0⟩ := by
  intro submit oracle
  unfold Murf.sendToMurf
  rw [h]

/-- Witness for C3 at the unsupported language name "Klingon". -/
theorem c3_witness :
    assocLookup LANGUAGE_MAP "Klingon" = none ∧
    Murf.sendToMurf "Klingon" (.ok "job-1") (fun _ => .netError) =
      ⟨.unsupportedLanguage "Klingon", 0, 0⟩ :=
  ⟨by decide, c3_unsupported_language_zero_network "Klingon" (by decide) _ _⟩

/-- C4: a status poll that fails with a network error is swallowed: the loop
simply continues with the next attempt (first conjunct).  The loop terminates
early only by observing a poll whose body returns a download URL, i.e. a
definitive completed status (second conjunct), and otherwise runs the full
attempt budget before timing out (third conjunct). -/
theorem c4_net_errors_swallowed (oracle : Nat → Murf.PollResponse) :
    (∀ fuel i, oracle i = .netError →
        Murf.pollFrom oracle (fuel + 1) i = Murf.pollFrom oracle fuel (i + 1)) ∧
    (∀ fuel i url k, Murf.pollFrom oracle fuel i = .success url k →
        i < k ∧ k ≤ i + fuel ∧ Murf.loopBody (oracle (k - 1)) = .returned url) ∧
    (∀ fuel i k, Murf.pollFrom oracle fuel i = .timeout k → k = i + fuel) := by
  refine ⟨?_, pollFrom_success_inv oracle, pollFrom_timeout_inv oracle⟩
  intro fuel i hne
  rw [pollFrom_succ, hne]
  rfl

/-- Witness for C4 at a run whose first poll is a network error and whose
second poll completes with a download entry. -/
theorem c4_witness :
    Murf.pollFrom c4Oracle 3 0 = Murf.pollFrom c4Oracle 2 1 ∧
    (0 < 2 ∧ 2 ≤ 0 + 2 ∧
      Murf.loopBody (c4Oracle (2 - 1)) = .returned "https://murf.example/out.mp4") ∧
    5 = 5 + 0 :=
  ⟨(c4_net_errors_swallowed c4Oracle).1 2 0 rfl,
   (c4_net_errors_swallowed c4Oracle).2.1 2 0 "https://murf.example/out.mp4" 2 (by decide),
   (c4_net_errors_swallowed c4Oracle).2.2 0 5 5 rfl⟩

/-- C5: with `RUNNING` for the first 5 polls and then `COMPLETED` carrying
one download entry, `sendToMurf` returns that entry's URL after exactly 6
status calls (and one submission call). -/
theorem c5_running_then_completed (url : String) (hu : url ≠ "") :
    Murf.sendToMurf "English" (.ok "job-1") (c5Oracle url) =
      ⟨.success url, 1, 6⟩ := by
  have hb : (url == "") = false := beq_eq_false_iff_ne.mpr hu
  have hpre : ∀ j, j < 5 → ∀ u, Murf.loopBody (c5Oracle url j) ≠ .returned u := by
    intro j hj u
    have hoj : c5Oracle url j = .ok "RUNNING" none none := by
      simp [c5Oracle, hj]
    rw [hoj]
    show Murf.BodyResult.normal ≠ _
    simp
  have hk : Murf.loopBody (c5Oracle url 5) = .returned url := by
    have ho5 : c5Oracle url 5 = .ok "COMPLETED" (some [⟨some url⟩]) none := by
      simp [c5Oracle]
    rw [ho5]
    simp [Murf.loopBody, jsTruthy, List.find?, hb]
  rw [sendToMurf_poll "English" "en_US" "job-1" _ (by decide),
      pollFrom_first_return (c5Oracle url) 5 url hpre hk 120 0 (by omega) (by omega)]

/-- Witness for C5 at a concrete download URL. -/
theorem c5_witness :
    Murf.sendToMurf "English" (.ok "job-1") (c5Oracle "https://murf.example/dub.mp4") =
      ⟨.success "https://murf.example/dub.mp4", 1, 6⟩ :=
  c5_running_then_completed "https://murf.example/dub.mp4" (by decide)

/-- C6 counterexample: the dubbing service `sendToMurf`
(`functions/services/dubbing.js`, one of the vendor-job submission sites of
the repository) wraps its submission `axios.post(baseUrl + "/dub", form)` in
`retryOperation`: with a submission endpoint failing on the first two
attempts, the submission request is issued 3 times, refuting "the submission
request is issued at most once". -/
theorem c6_counterexample :
    Dubbing.sendToMurf "English" flakySubmitOp =
      (.dubbed "https://murf.example/video.mp4", 3) ∧
    ¬(Dubbing.sendToMurf "English" flakySubmitOp).2 ≤ 1 := by
  decide

/-- C6 (amended): the polling job driver of `functions/index.js` issues its
submission request at most once per invocation and never through the retry
helper; the legacy dubbing service, by contrast, routes its submission
through the 3-attempt retry helper and can issue it up to 3 times. -/
theorem c6_amended_submission_counts :
    (∀ (lang : String) (submit : Murf.SubmitResponse) (oracle : Nat → Murf.PollResponse),
        (Murf.sendToMurf lang submit oracle).submitCalls ≤ 1) ∧
    (∀ (lang : String) (op : Nat → Except Retry.OpError String),
        (Dubbing.sendToMurf lang op).2 ≤ 3) := by
  constructor
  · intro lang submit oracle
    unfold Murf.sendToMurf
    cases assocLookup LANGUAGE_MAP lang with
    | none => simp
    | some l =>
      cases submit with
      | httpError c => simp
      | ok j =>
        cases Murf.pollFrom oracle Murf.maxRetries 0 with
        | success u p => simp
        | timeout p => simp
  · intro lang op
    unfold Dubbing.sendToMurf
    cases assocLookup Dubbing.configLanguageMap lang with
    | none => simp
    | some l =>
      have h : (Retry.retryOperation op 3).2 ≤ 3 := retryGo_calls_le op 3 3 1
      cases hm : (Retry.retryOperation op 3).1 with
      | ok u => simpa [hm] using h
      | error e => simpa [hm] using h

/-- C7: for each row of the supported-language table, `normalizeLanguage`
maps both the full name and the two-letter code to the canonical name, and
the job driver lookup in `LANGUAGE_MAP` yields exactly the listed locale. -/
theorem c7_language_table_supported :
    ∀ e ∈ specLanguageTable,
      normalizeLanguage (some e.name) = some e.name ∧
      normalizeLanguage (some e.code) = some e.name ∧
      assocLookup LANGUAGE_MAP e.name = some e.locale := by
  decide

/-- Witness for C7 at the Korean row of the table. -/
theorem c7_witness :
    normalizeLanguage (some "Korean") = some "Korean" ∧
    normalizeLanguage (some "ko") = some "Korean" ∧
    assocLookup LANGUAGE_MAP "Korean" = some "ko_KR" :=
  c7_language_table_supported ⟨"Korean", "ko", "ko_KR"⟩ (by decide)

/-- C8: when the understanding-service call fails entirely (throw or invalid
JSON), `parseMention` returns exactly the two regex guesses, each absent
when its pattern finds no match; in particular the spec example text yields
language "ko" and the status URL without any service success. -/
theorem c8_parse_mention_degrades :
    (∀ text : String,
        Extract.parseMention text .fail =
          ⟨Extract.isoFirst text, Extract.urlFirst text⟩ ∧
        Extract.parseMention text .badJson =
          ⟨Extract.isoFirst text, Extract.urlFirst text⟩) ∧
    Extract.parseMention "please dub this in ko https://x.com/user/status/123" .fail =
      ⟨some "ko", some "https://x.com/user/status/123"⟩ := by
  constructor
  · intro text
    by_cases h : text = ""
    · subst h
      exact ⟨rfl, rfl⟩
    · have hb : (text == "") = false := beq_eq_false_iff_ne.mpr h
      constructor <;> simp [Extract.parseMention, hb]
  · decide

/-- C9: a mention whose id already has a processed marker is skipped before
the extractor and the job driver in every poll cycle and in every webhook
delivery: its id is never added to the `parseMention` or `sendToMurf` call
traces, and its marker persists. -/
theorem c9_processed_marker_skips (st : Pipeline.PollState) (mid : String)
    (h1 : mid ∈ st.processed) (h2 : mid ∉ st.extractorCalls) (h3 : mid ∉ st.murfCalls) :
    (∀ batch, mid ∉ (Pipeline.doPollMentions st batch).extractorCalls ∧
        mid ∉ (Pipeline.doPollMentions st batch).murfCalls ∧
        mid ∈ (Pipeline.doPollMentions st batch).processed) ∧
    (∀ m out, mid ∉ (Pipeline.processMentionTweet st m out).extractorCalls ∧
        mid ∉ (Pipeline.processMentionTweet st m out).murfCalls) := by
  constructor
  · intro batch
    have h := doPollMentions_preserves mid batch st h1 h2 h3
    exact ⟨h.2.1, h.2.2, h.1⟩
  · intro m out
    have h := processOne_preserves mid st m out h1 h2 h3
    exact ⟨h.2.1, h.2.2⟩

/-- Witness for C9: a batch redelivering the already-processed mention "42". -/
theorem c9_witness :
    "42" ∉ (Pipeline.doPollMentions ⟨["42"], [], []⟩
        [(⟨"42", "please dub this"⟩, .murfSuccess),
         (⟨"77", "hello"⟩, .murfSuccess)]).extractorCalls ∧
    "42" ∉ (Pipeline.doPollMentions ⟨["42"], [], []⟩
        [(⟨"42", "please dub this"⟩, .murfSuccess),
         (⟨"77", "hello"⟩, .murfSuccess)]).murfCalls ∧
    "42" ∈ (Pipeline.doPollMentions ⟨["42"], [], []⟩
        [(⟨"42", "please dub this"⟩, .murfSuccess),
         (⟨"77", "hello"⟩, .murfSuccess)]).processed :=
  (c9_processed_marker_skips ⟨["42"], [], []⟩ "42"
      (by decide) (by decide) (by decide)).1
    [(⟨"42", "please dub this"⟩, .murfSuccess), (⟨"77", "hello"⟩, .murfSuccess)]

/-- C10: `normalizeLanguage` yields `undefined` exactly on an absent or empty
input; a non-empty input whose trimmed, lower-cased form is one of the eight
known two-letter codes maps to the canonical name, and any other non-empty
input is passed through as its trimmed form with only the first character
upper-cased. -/
theorem c10_normalize_language_characterization :
    normalizeLanguage none = none ∧
    (∀ s : String, normalizeLanguage (some s) = none ↔ s = "") ∧
    (∀ s : String, s ≠ "" → ∀ code name, (code, name) ∈ isoToName →
        jsToLower (jsTrim s) = code → normalizeLanguage (some s) = some name) ∧
    (∀ s : String, s ≠ "" → jsToLower (jsTrim s) ∉ isoCodeKeys →
        normalizeLanguage (some s) = some (upperFirstChar (jsTrim s))) := by
  refine ⟨rfl, ?_, ?_, ?_⟩
  · intro s
    by_cases h : s = ""
    · subst h
      simp [normalizeLanguage]
    · have hb : (s == "") = false := beq_eq_false_iff_ne.mpr h
      simp only [normalizeLanguage, hb, Bool.false_eq_true, if_false]
      cases hl : assocLookup isoToName (jsToLower (jsTrim s)) <;> simp [h]
  · intro s hs code name hmem hlow
    have hb : (s == "") = false := beq_eq_false_iff_ne.mpr hs
    have hl : assocLookup isoToName code = some name := by
      fin_cases hmem <;> rfl
    simp only [normalizeLanguage, hb, Bool.false_eq_true, if_false]
    rw [hlow, hl]
  · intro s hs hnot
    have hb : (s == "") = false := beq_eq_false_iff_ne.mpr hs
    have hl : assocLookup isoToName (jsToLower (jsTrim s)) = none :=
      assocLookup_eq_none_of_not_mem_keys isoToName (jsToLower (jsTrim s)) hnot
    simp only [normalizeLanguage, hb, Bool.false_eq_true, if_false]
    rw [hl]

/-- Witness for C10: the code " KO " (trimmed and lower-cased to a known
code) and the unknown name "french" (passed through with its first character
upper-cased). -/
theorem c10_witness :
    (normalizeLanguage (some " KO ") = none ↔ (" KO " : String) = "") ∧
    normalizeLanguage (some " KO ") = some "Korean" ∧
    normalizeLanguage (some "french") = some (upperFirstChar (jsTrim "french")) :=
  ⟨(c10_normalize_language_characterization).2.1 " KO ",
   (c10_normalize_language_characterization).2.2.1 " KO " (by decide) "ko" "Korean"
     (by decide) (by decide),
   (c10_normalize_language_characterization).2.2.2 "french" (by decide) (by decide)⟩

end TwitterBot
